import Mathlib

/-!
Verification of the repair-cost estimation and aggregation logic of the
building-inspection application (`parse_cost` and `calculate_total_repairs`
in `app.py`).  The two functions are embedded below as executable Lean
definitions, translated line by line from the source, and the documented
properties of the cost parser and the cost aggregator are proved about them.
-/

/-- One defect record.  The core reads only the `cost` field; the other
fields are carried so that noninterference can be stated.  A field whose
value is `none` models an absent key in the source's dictionary records. -/
structure DefectRecord where
  area : Option String
  title : Option String
  severity : Option String
  observation : Option String
  recommendation : Option String
  image : Option String
  cost : Option String
deriving DecidableEq

/-- Numeric value of a run of decimal digits, read left to right as
`int(...)` reads it. -/
def digitsToNat (cs : List Char) : Nat :=
  cs.foldl (fun a c => 10 * a + (c.toNat - '0'.toNat)) 0

/-- Maximal runs of decimal digits in a character list, scanned left to
right as `re.findall` with a one-or-more-digits pattern does; `acc` holds
the digits of the current run in reverse. -/
def digitRunsAux : List Char → List Char → List (List Char)
  | [], acc => if acc = [] then [] else [acc.reverse]
  | c :: rest, acc =>
    if c.isDigit then digitRunsAux rest (c :: acc)
    else if acc = [] then digitRunsAux rest []
    else acc.reverse :: digitRunsAux rest []

/-- All maximal digit runs of a string. -/
def findallDigits (s : String) : List (List Char) :=
  digitRunsAux s.data []

/-- Removal of every comma, as `str.replace` of a comma with the empty
string. -/
def stripCommas (s : String) : String :=
  ⟨s.data.filter (fun c => c ≠ ',')⟩

/-- The numbers extracted from a cost string: commas removed first, then
every maximal digit run converted to a number. -/
def extractNums (s : String) : List Nat :=
  (findallDigits (stripCommas s)).map digitsToNat

/-- Selection of the bounds from the extracted numbers: no number gives
`(0, 0)`, exactly one gives `(n, n)`, two or more give the minimum and the
maximum of the whole list. -/
def pickBounds : List Nat → Nat × Nat
  | [] => (0, 0)
  | [n] => (n, n)
  | n :: rest => (rest.foldl min n, rest.foldl max n)

/-- The cost parser `parse_cost` of `app.py`: an absent value, the empty
string and the sentinel `"N/A"` give `(0, 0)`; otherwise the bounds are
picked from the digit runs of the comma-stripped string. -/
def parse_cost : Option String → Nat × Nat
  | none => (0, 0)
  | some s => if s = "" ∨ s = "N/A" then (0, 0) else pickBounds (extractNums s)

/-- Cost string of a record, the sentinel when the field is absent, as
`d.get` with the default `"N/A"` reads it. -/
def costOf (d : DefectRecord) : String :=
  d.cost.getD "N/A"

/-- The cost aggregator `calculate_total_repairs` of `app.py`: running sums
of the low and the high bound of every record's parsed cost. -/
def calculate_total_repairs (defects : List DefectRecord) : Nat × Nat :=
  defects.foldl
    (fun t d =>
      (t.1 + (parse_cost (some (costOf d))).1,
       t.2 + (parse_cost (some (costOf d))).2))
    (0, 0)

/-- Minimum of a list of naturals, `0` on the empty list; on a nonempty
list this is the minimum of all elements. -/
def listMin : List Nat → Nat
  | [] => 0
  | n :: rest => rest.foldl min n

/-- Maximum of a list of naturals, `0` on the empty list; on a nonempty
list this is the maximum of all elements. -/
def listMax : List Nat → Nat
  | [] => 0
  | n :: rest => rest.foldl max n

/-- A record holding only a cost string, used in concrete scenarios. -/
def recOfCost (c : Option String) : DefectRecord :=
  ⟨none, none, none, none, none, none, c⟩

example : extractNums "$500 - $1,200" = [500, 1200] := by decide
example : parse_cost (some "$750") = (750, 750) := by decide
example : parse_cost (some "Approx 2 x $300 panels") = (2, 300) := by decide
example : parse_cost (some "500,1200") = (5001200, 5001200) := by decide
example :
    calculate_total_repairs
      [recOfCost (some "$100 - $200"), recOfCost (some "$50"),
       recOfCost (some "N/A")] = (150, 250) := by decide

theorem foldl_min_le_init (l : List Nat) : ∀ n : Nat, l.foldl min n ≤ n := by
  induction l with
  | nil => intro n; exact le_refl n
  | cons a t ih => intro n; exact le_trans (ih (min n a)) (min_le_left n a)

theorem init_le_foldl_max (l : List Nat) : ∀ n : Nat, n ≤ l.foldl max n := by
  induction l with
  | nil => intro n; exact le_refl n
  | cons a t ih => intro n; exact le_trans (le_max_left n a) (ih (max n a))

theorem pickBounds_fst_le_snd (l : List Nat) :
    (pickBounds l).1 ≤ (pickBounds l).2 := by
  match l with
  | [] => exact le_refl 0
  | [n] => exact le_refl n
  | n :: m :: rest =>
      exact le_trans (foldl_min_le_init (m :: rest) n)
        (init_le_foldl_max (m :: rest) n)

theorem parse_cost_fst_le_snd (s : Option String) :
    (parse_cost s).1 ≤ (parse_cost s).2 := by
  cases s with
  | none => exact le_refl 0
  | some str =>
      simp only [parse_cost]
      split
      · exact le_refl 0
      · exact pickBounds_fst_le_snd (extractNums str)

theorem calc_foldl_eq_sums (defects : List DefectRecord) :
    ∀ init : Nat × Nat,
      defects.foldl
          (fun t d =>
            (t.1 + (parse_cost (some (costOf d))).1,
             t.2 + (parse_cost (some (costOf d))).2)) init =
        (init.1 + (defects.map fun d => (parse_cost (some (costOf d))).1).sum,
         init.2 + (defects.map fun d => (parse_cost (some (costOf d))).2).sum) := by
  induction defects with
  | nil => intro init; simp
  | cons d rest ih =>
      intro init
      rw [List.foldl_cons, ih]
      simp [Nat.add_assoc]

theorem calc_eq_sums (defects : List DefectRecord) :
    calculate_total_repairs defects =
      ((defects.map fun d => (parse_cost (some (costOf d))).1).sum,
       (defects.map fun d => (parse_cost (some (costOf d))).2).sum) := by
  unfold calculate_total_repairs
  rw [calc_foldl_eq_sums]
  simp

theorem parse_cost_of_runs (s : String) (h : extractNums s ≠ []) :
    parse_cost (some s) = pickBounds (extractNums s) := by
  simp only [parse_cost]
  rw [if_neg]
  rintro (rfl | rfl) <;> exact h (by decide)

/-- C1: for every input string whose comma-stripped form holds two or more
maximal digit runs, parse_cost returns the minimum and the maximum of all
extracted runs; position in the string is irrelevant and every number
participates. -/
theorem parse_cost_min_max (s : String)
    (h : 2 ≤ (extractNums s).length) :
    parse_cost (some s) = (listMin (extractNums s), listMax (extractNums s)) := by
  rw [parse_cost_of_runs s (by intro hE; rw [hE] at h; exact absurd h (by decide))]
  rcases hE : extractNums s with _ | ⟨n, _ | ⟨m, rest⟩⟩
  · rw [hE] at h; exact absurd h (by decide)
  · rw [hE] at h; simp at h
  · rfl

/-- Witness for C1 at the spec's quirk scenario. -/
theorem parse_cost_min_max_witness :
    2 ≤ (extractNums "Approx 2 x $300 panels").length ∧
      parse_cost (some "Approx 2 x $300 panels") = (2, 300) := by
  refine ⟨by decide, ?_⟩
  rw [parse_cost_min_max "Approx 2 x $300 panels" (by decide)]
  decide

/-- C2: calculate_total_repairs is the element-wise sum of the parsed
bounds of every record's cost, a missing cost read as the sentinel; the
empty sequence yields (0, 0), and the spec's concrete scenario yields
(150, 250). -/
theorem calculate_total_repairs_spec :
    (∀ defects : List DefectRecord,
        calculate_total_repairs defects =
          ((defects.map fun d => (parse_cost (some (costOf d))).1).sum,
           (defects.map fun d => (parse_cost (some (costOf d))).2).sum)) ∧
      calculate_total_repairs [] = (0, 0) ∧
      calculate_total_repairs
          [recOfCost (some "$100 - $200"), recOfCost (some "$50"),
           recOfCost (some "N/A")] = (150, 250) :=
  ⟨calc_eq_sums, rfl, by decide⟩

/-- C3: the absent value, the empty string and the sentinel string give
(0, 0). -/
theorem parse_cost_sentinel :
    parse_cost none = (0, 0) ∧ parse_cost (some "") = (0, 0) ∧
      parse_cost (some "N/A") = (0, 0) :=
  ⟨rfl, by decide, by decide⟩

/-- C4: a string whose comma-stripped form holds exactly one maximal digit
run of value n parses to (n, n). -/
theorem parse_cost_single_run (s : String) (n : Nat)
    (h : extractNums s = [n]) :
    parse_cost (some s) = (n, n) := by
  rw [parse_cost_of_runs s (by rw [h]; simp), h]
  rfl

/-- Witness for C4 at the spec's scenario with a lone price. -/
theorem parse_cost_single_run_witness :
    extractNums "$750" = [750] ∧ parse_cost (some "$750") = (750, 750) :=
  ⟨by decide, parse_cost_single_run "$750" 750 (by decide)⟩

/-- C5: both operations are total Lean functions; any string with no digit
runs falls back to (0, 0), the absent value falls back to (0, 0), and a
record whose cost has no digit runs contributes nothing to the aggregate. -/
theorem parse_cost_total_fallback (s : String) (d : DefectRecord)
    (defects : List DefectRecord)
    (hs : extractNums s = []) (hd : extractNums (costOf d) = []) :
    parse_cost (some s) = (0, 0) ∧ parse_cost none = (0, 0) ∧
      calculate_total_repairs (d :: defects) = calculate_total_repairs defects := by
  have hp : ∀ t : String, extractNums t = [] → parse_cost (some t) = (0, 0) := by
    intro t ht
    simp only [parse_cost]
    split
    · rfl
    · rw [ht]; rfl
  refine ⟨hp s hs, rfl, ?_⟩
  rw [calc_eq_sums, calc_eq_sums]
  simp [hp (costOf d) hd]

/-- Witness for C5 on a prose cost string and a record without a cost. -/
theorem parse_cost_total_fallback_witness :
    extractNums "to be advised" = [] ∧
      extractNums (costOf (recOfCost none)) = [] ∧
      (parse_cost (some "to be advised") = (0, 0) ∧ parse_cost none = (0, 0) ∧
        calculate_total_repairs (recOfCost none :: [recOfCost (some "$50")]) =
          calculate_total_repairs [recOfCost (some "$50")]) :=
  ⟨by decide, by decide,
    parse_cost_total_fallback "to be advised" (recOfCost none)
      [recOfCost (some "$50")] (by decide) (by decide)⟩

/-- C6: the parsed pair and the aggregate pair are pairs of naturals, hence
non-negative, and the low component never exceeds the high component. -/
theorem cost_bounds_invariant (s : Option String)
    (defects : List DefectRecord) :
    (parse_cost s).1 ≤ (parse_cost s).2 ∧
      (calculate_total_repairs defects).1 ≤ (calculate_total_repairs defects).2 := by
  refine ⟨parse_cost_fst_le_snd s, ?_⟩
  rw [calc_eq_sums]
  exact List.sum_le_sum fun d _ => parse_cost_fst_le_snd (some (costOf d))

/-- Witness for C6 (the statement's binders are not propositions, but a
concrete instance is recorded all the same). -/
theorem cost_bounds_invariant_witness :
    (parse_cost (some "$500 - $1,200")).1 ≤ (parse_cost (some "$500 - $1,200")).2 ∧
      (calculate_total_repairs [recOfCost (some "$500 - $1,200")]).1 ≤
        (calculate_total_repairs [recOfCost (some "$500 - $1,200")]).2 :=
  cost_bounds_invariant (some "$500 - $1,200") [recOfCost (some "$500 - $1,200")]

/-- C7: aggregation is additive over concatenation of record sequences. -/
theorem calculate_total_repairs_append (l1 l2 : List DefectRecord) :
    calculate_total_repairs (l1 ++ l2) =
      ((calculate_total_repairs l1).1 + (calculate_total_repairs l2).1,
       (calculate_total_repairs l1).2 + (calculate_total_repairs l2).2) := by
  rw [calc_eq_sums, calc_eq_sums, calc_eq_sums]
  simp

/-- C8: aggregation is invariant under permutation of the record sequence. -/
theorem calculate_total_repairs_perm (l1 l2 : List DefectRecord)
    (h : l1.Perm l2) :
    calculate_total_repairs l1 = calculate_total_repairs l2 := by
  rw [calc_eq_sums, calc_eq_sums]
  exact Prod.ext ((h.map _).sum_eq) ((h.map _).sum_eq)

/-- Witness for C8 on a two-record swap. -/
theorem calculate_total_repairs_perm_witness :
    calculate_total_repairs
        [recOfCost (some "$50"), recOfCost (some "$100 - $200")] =
      calculate_total_repairs
        [recOfCost (some "$100 - $200"), recOfCost (some "$50")] :=
  calculate_total_repairs_perm _ _ (List.Perm.swap _ _ _)

/-- C9: the aggregator reads only the cost field: two record sequences
whose cost fields agree pairwise (including absence) aggregate alike,
whatever their other fields hold. -/
theorem calculate_total_repairs_cost_only (l1 l2 : List DefectRecord)
    (h : l1.map DefectRecord.cost = l2.map DefectRecord.cost) :
    calculate_total_repairs l1 = calculate_total_repairs l2 := by
  rw [calc_eq_sums, calc_eq_sums]
  have e1 := congrArg
    (List.map fun c : Option String => (parse_cost (some (c.getD "N/A"))).1) h
  have e2 := congrArg
    (List.map fun c : Option String => (parse_cost (some (c.getD "N/A"))).2) h
  rw [List.map_map, List.map_map] at e1
  rw [List.map_map, List.map_map] at e2
  exact Prod.ext (congrArg List.sum e1) (congrArg List.sum e2)

/-- A fully populated defect record used to witness noninterference. -/
def fullRecord : DefectRecord :=
  ⟨some "Roof Exterior", some "Cracked tile",
   some "Minor Defect (Maintenance)", some "One ridge capping tile cracked",
   some "Replace the cracked tile", some "roof.jpg", some "$50"⟩

/-- Witness for C9: a fully populated record and a bare record with the
same cost aggregate alike. -/
theorem calculate_total_repairs_cost_only_witness :
    [fullRecord].map DefectRecord.cost =
        [recOfCost (some "$50")].map DefectRecord.cost ∧
      calculate_total_repairs [fullRecord] =
        calculate_total_repairs [recOfCost (some "$50")] :=
  ⟨by decide, calculate_total_repairs_cost_only _ _ (by decide)⟩

/-- C10: commas are removed before digit runs are extracted, so a comma
standing alone between two digit runs fuses them into one number, while a
comma inside a thousands-separated number is transparent. -/
theorem parse_cost_comma_fusion :
    parse_cost (some "500,1200") = (5001200, 5001200) ∧
      parse_cost (some "$500 - $1,200") = (500, 1200) :=
  ⟨by decide, by decide⟩
